import Mathlib

/-!
Shallow embedding of `sym3tri/go-github-pivotal-migrator` (src/main.go), a
one-shot batch tool that migrates open GitHub issues (and their comments)
into Pivotal Tracker stories.

Modelling conventions:
* A Go string is modelled by a Lean `String`; each `Char` stands for one
  byte unit of the Go string, so `String.length` models Go `len` and
  `String.data.take` models Go byte slicing.
* A Go pointer field (`*string`, `*int`, ...) is modelled by `Option`;
  dereferencing `nil` (a Go runtime panic) is modelled by propagating
  `none` / the `Outcome.panics` outcome, in the source's evaluation order.
* `github.Timestamp` values only ever appear rendered through `%s`, so a
  `CreatedAt` field is modelled by its rendered string.
* `%q` applied to the label slice is modelled by `goQuoteList` over the
  label names.
* The two remote services are modelled by an `Env` of response functions
  (`Except` for the Go `error` results), and a run is modelled by the list
  of external calls and prints it performs (`Effect`) plus how it ends
  (`Outcome`): normal return, `log.Fatal` (process exit), or a nil-pointer
  panic.
-/

namespace Migrator

/-- Rendering of one Go string under the `%q` verb (quoted form). -/
def goQuote (s : String) : String := "\"" ++ s ++ "\""

/-- Rendering of a slice of labels under the `%q` verb: bracketed,
space-separated, each element quoted. -/
def goQuoteList (ls : List String) : String :=
  "[" ++ String.intercalate " " (ls.map goQuote) ++ "]"

/-- The subset of `github.Issue` read by the program. Pointer fields are
`Option`; `Labels` is a slice (never dereferenced), kept as the label
names. -/
structure Issue where
  Number    : Option Int
  Title     : Option String
  Body      : Option String
  CreatedAt : Option String
  HTMLURL   : Option String
  Labels    : List String
  deriving DecidableEq, Repr

/-- The subset of `github.User` read by the program. -/
structure User where
  Login : Option String
  deriving DecidableEq, Repr

/-- The subset of `github.IssueComment` read by the program. -/
structure IssueComment where
  HTMLURL   : Option String
  CreatedAt : Option String
  User      : Option User
  Body      : Option String
  deriving DecidableEq, Repr

/-- `pivotal.Label` (only its `Name` field is ever set or read). -/
structure Label where
  Name : String
  deriving DecidableEq, Repr

/-- `pivotal.StoryTypeFeature`. -/
def StoryTypeFeature : String := "feature"

/-- `pivotal.StoryStateUnscheduled`. -/
def StoryStateUnscheduled : String := "unscheduled"

/-- The subset of `pivotal.StoryRequest` the program constructs. The Go
field `Type` is spelled `StoryType` here because `Type` is a Lean keyword. -/
structure StoryRequest where
  Name        : String
  Description : String
  Labels      : List Label
  StoryType   : String
  State       : String
  deriving DecidableEq, Repr

/-- `pivotal.Comment` (only its `Text` field is ever set or read). -/
structure Comment where
  Text : String
  deriving DecidableEq, Repr

/-- The subset of `pivotal.Story` the program reads back (`newStory.Id`). -/
structure Story where
  Id : Int
  deriving DecidableEq, Repr

/-- The provenance block prepended by `convertIssue` (src/main.go lines
142-150): `fmt.Sprintf` of the format string built there, applied to
`*is.HTMLURL`, `*is.CreatedAt`, `is.Labels`. -/
def issueProv (url created : String) (labels : List String) : String :=
  url ++ "\n```\nMigrated from Github\nCreated: " ++ created ++ "\nLabels: " ++
    goQuoteList labels ++ "\n```\n\n"

/-- `convertIssue` (src/main.go lines 136-162). Returns `none` when a nil
pointer would be dereferenced; the binds follow the source's dereference
order: `*is.HTMLURL`, `*is.CreatedAt` (then `is.Labels`, a slice),
`*is.Body`, `*is.Title`. -/
def convertIssue (repo : String) (is : Issue) : Option StoryRequest := do
  let url ← is.HTMLURL
  let created ← is.CreatedAt
  let body ← is.Body
  let title ← is.Title
  pure ⟨title, issueProv url created is.Labels ++ body,
        [⟨"github-migrated"⟩, ⟨"github-repo/" ++ repo⟩],
        StoryTypeFeature, StoryStateUnscheduled⟩

/-- The provenance block prepended by `convertComment` (src/main.go lines
165-173). -/
def commentProv (url created author : String) : String :=
  url ++ "\n```\nMigrated from Github\nCreated: " ++ created ++ "\nAuthor: " ++
    author ++ "\n```\n\n"

/-- `convertComment` (src/main.go lines 164-181). Dereference order:
`*cm.HTMLURL`, `*cm.CreatedAt`, `cm.User` then `*cm.User.Login`,
`*cm.Body`. -/
def convertComment (cm : IssueComment) : Option Comment := do
  let url ← cm.HTMLURL
  let created ← cm.CreatedAt
  let user ← cm.User
  let login ← user.Login
  let body ← cm.Body
  pure ⟨commentProv url created login ++ body⟩

/-- `trunc` (src/main.go lines 235-241): identity below 255, else the
first 255 byte units (`s[0:255]`). -/
def trunc (s : String) : String :=
  if s.length < 255 then s else String.mk (s.data.take 255)

/-- `printIssue` (src/main.go lines 183-194): the rendered block, or
`none` on a nil dereference (argument evaluation order: `*is.Number`,
`*is.Title`, `*is.HTMLURL`, `*is.CreatedAt`). -/
def printIssue (is : Issue) : Option String := do
  let n ← is.Number
  let title ← is.Title
  let url ← is.HTMLURL
  let created ← is.CreatedAt
  pure ("\n--- issue ---\nNumber: " ++ toString n ++ "\nTitle: " ++ title ++
    "\nURL: " ++ url ++ "\nCreated: " ++ created ++ "\nLabels: " ++
    goQuoteList is.Labels ++ "\n--- /issue ---\n")

/-- `printStory` (src/main.go lines 196-212); note `trunc` on the
description. -/
def printStory (sr : StoryRequest) : String :=
  "\n--- story ---\nName: " ++ sr.Name ++ "\nDescription: " ++
    trunc sr.Description ++ "\nType: " ++ sr.StoryType ++ "\nState: " ++
    sr.State ++ "\nLabels: " ++ goQuoteList (sr.Labels.map Label.Name) ++
    "\n--- /story ---\n"

/-- `printIssueComment` (src/main.go lines 214-224); note `trunc` on the
body. Argument order: `*cm.User.Login`, `*cm.CreatedAt`, `*cm.Body`. -/
def printIssueComment (cm : IssueComment) : Option String := do
  let user ← cm.User
  let login ← user.Login
  let created ← cm.CreatedAt
  let body ← cm.Body
  pure ("\n--- issue comment ---\nAuthor: " ++ login ++ "\nCreated: " ++
    created ++ "\nBody: " ++ trunc body ++ "\n--- /issue comment ---\n")

/-- `printStoryComment` (src/main.go lines 226-233); note `trunc` on the
text. -/
def printStoryComment (cm : Comment) : String :=
  "\n--- story comment ---\nText: " ++ trunc cm.Text ++
    "\n--- /story comment ---\n"

/-- The configuration flags the pipeline reads (src/main.go lines 16-25);
tokens only configure the clients and are omitted. -/
structure Config where
  owner    : String
  repos    : List String
  ptProjId : Int
  limit    : Int
  dryRun   : Bool
  deriving DecidableEq, Repr

/-- Responses of the two remote services: `ghSvc.ListByRepo` (owner, repo,
state, perPage), `ghSvc.ListComments` (owner, repo, issue number, perPage),
`ptSvc.Create` (project id, request), `ptSvc.AddComment` (project id,
story id, comment). `Except.error` models a non-nil Go `error`. -/
structure Env where
  listByRepo   : String → String → String → Int → Except String (List Issue)
  listComments : String → String → Int → Int → Except String (List IssueComment)
  create       : Int → StoryRequest → Except String Story
  addComment   : Int → Int → Comment → Except String Comment

/-- One observable step of a run: a remote call or a print. -/
inductive Effect where
  | listIssues (owner repo state : String) (perPage : Int)
  | listComments (owner repo : String) (issueNumber perPage : Int)
  | createStory (projId : Int) (req : StoryRequest)
  | addComment (projId storyId : Int) (c : Comment)
  | print (s : String)
  deriving DecidableEq, Repr

/-- How a run ends: normal return, `log.Fatal*` (non-zero process exit),
or a nil-pointer dereference panic. -/
inductive Outcome where
  | ok
  | fatal (msg : String)
  | panics
  deriving DecidableEq, Repr

/-- Output of `fmt.Println("\n===== begin =====\n")` (src/main.go line 94). -/
def beginBanner : String := "\n===== begin =====\n\n"

/-- Output of `fmt.Println("\n===== end =====\n")` (src/main.go line 133). -/
def endBanner : String := "\n===== end =====\n\n"

/-- Body of the per-comment loop of `migrateIssue` (src/main.go lines
120-131): convert, then print (dry run) or attach to the created story. -/
def commentStep (cfg : Config) (env : Env) (newStory : Option Story)
    (cm : IssueComment) : List Effect × Outcome :=
  match convertComment cm with
  | none => ([], .panics)
  | some commentReq =>
    if cfg.dryRun then
      match printIssueComment cm with
      | none => ([], .panics)
      | some s => ([.print s, .print (printStoryComment commentReq)], .ok)
    else
      match newStory with
      | none => ([], .panics)
      | some st =>
        match env.addComment cfg.ptProjId st.Id commentReq with
        | .error e => ([.addComment cfg.ptProjId st.Id commentReq],
                       .fatal ("error creating comment: " ++ e))
        | .ok _ => ([.addComment cfg.ptProjId st.Id commentReq], .ok)

/-- The per-comment loop of `migrateIssue`; a fatal error or panic stops
the run. -/
def commentsLoop (cfg : Config) (env : Env) (newStory : Option Story) :
    List IssueComment → List Effect × Outcome
  | [] => ([], .ok)
  | cm :: rest =>
    match commentStep cfg env newStory cm with
    | (tr, Outcome.ok) =>
      let r := commentsLoop cfg env newStory rest
      (tr ++ r.1, r.2)
    | (tr, out) => (tr, out)

/-- The story phase of `migrateIssue` (src/main.go lines 99-108): print in
dry-run mode (no story), else create the story remotely. `Except.error`
carries the early termination. -/
def storyPhase (cfg : Config) (env : Env) (is : Issue)
    (storyReq : StoryRequest) : List Effect × Except Outcome (Option Story) :=
  if cfg.dryRun then
    match printIssue is with
    | none => ([], .error .panics)
    | some s => ([.print s, .print (printStory storyReq)], .ok none)
  else
    match env.create cfg.ptProjId storyReq with
    | .error e => ([.createStory cfg.ptProjId storyReq],
                   .error (.fatal ("error creating story: " ++ e)))
    | .ok st => ([.createStory cfg.ptProjId storyReq], .ok (some st))

/-- Output of the `found %d comments for issue number: %d` print
(src/main.go line 119). -/
def foundCommentsMsg (k : Nat) (n : Int) : String :=
  "found " ++ toString k ++ " comments for issue number: " ++ toString n

/-- `migrateIssue` (src/main.go lines 93-134): banner, convert, story
phase, fetch comments (`*is.Number`), per-comment loop, end banner. -/
def migrateIssue (cfg : Config) (env : Env) (repo : String) (is : Issue) :
    List Effect × Outcome :=
  match convertIssue repo is with
  | none => ([.print beginBanner], .panics)
  | some storyReq =>
    match storyPhase cfg env is storyReq with
    | (tr1, .error out) => (.print beginBanner :: tr1, out)
    | (tr1, .ok newStory) =>
      match is.Number with
      | none => (.print beginBanner :: tr1, .panics)
      | some n =>
        let tr2 := tr1 ++ [.listComments cfg.owner repo n 1000]
        match env.listComments cfg.owner repo n 1000 with
        | .error e =>
          (.print beginBanner :: tr2,
           .fatal ("failed to list gh comments for repo: " ++ repo ++
             ", issue " ++ toString n ++ ": error: " ++ e))
        | .ok cms =>
          let tr3 := tr2 ++ [.print (foundCommentsMsg cms.length n)]
          match commentsLoop cfg env newStory cms with
          | (tr4, Outcome.ok) =>
            (.print beginBanner :: (tr3 ++ tr4 ++ [.print endBanner]), .ok)
          | (tr4, out) => (.print beginBanner :: (tr3 ++ tr4), out)

/-- The per-issue loop of `main` (src/main.go lines 62-64). -/
def issuesLoop (cfg : Config) (env : Env) (repo : String) :
    List Issue → List Effect × Outcome
  | [] => ([], .ok)
  | is :: rest =>
    match migrateIssue cfg env repo is with
    | (tr, Outcome.ok) =>
      let r := issuesLoop cfg env repo rest
      (tr ++ r.1, r.2)
    | (tr, out) => (tr, out)

/-- Output of the `Analysing repo: %s/%s` print (src/main.go line 51). -/
def analysingMsg (owner repo : String) : String :=
  "Analysing repo: " ++ owner ++ "/" ++ repo ++ "\n"

/-- Output of the `found %d issues to migrate` print (src/main.go line 61). -/
def foundIssuesMsg (k : Nat) : String :=
  "found " ++ toString k ++ " issues to migrate"

/-- One iteration of the repository loop of `main` (src/main.go lines
50-65): announce, list open issues (`state "open"`, per page `limit`),
then migrate each issue in order. -/
def repoStep (cfg : Config) (env : Env) (repo : String) :
    List Effect × Outcome :=
  let tr0 : List Effect :=
    [.print (analysingMsg cfg.owner repo),
     .listIssues cfg.owner repo "open" cfg.limit]
  match env.listByRepo cfg.owner repo "open" cfg.limit with
  | .error e =>
    (tr0, .fatal ("failed to list issues for repo: " ++ repo ++
      ", error: " ++ e))
  | .ok iss =>
    match issuesLoop cfg env repo iss with
    | (tr, out) => (tr0 ++ .print (foundIssuesMsg iss.length) :: tr, out)

/-- The repository loop of `main`; a fatal error or panic stops the run. -/
def reposLoop (cfg : Config) (env : Env) : List String → List Effect × Outcome
  | [] => ([], .ok)
  | repo :: rest =>
    match repoStep cfg env repo with
    | (tr, Outcome.ok) =>
      let r := reposLoop cfg env rest
      (tr ++ r.1, r.2)
    | (tr, out) => (tr, out)

/-- `main` (src/main.go lines 41-69) after flag parsing and client
construction (neither performs remote calls): fail on an empty repository
list, else run the repository loop and print the final summary. -/
def mainRun (cfg : Config) (env : Env) : List Effect × Outcome :=
  if cfg.repos.length < 1 then ([], .fatal "no github repos specified")
  else
    match reposLoop cfg env cfg.repos with
    | (tr, Outcome.ok) => (tr ++ [.print "Finished.\n"], .ok)
    | (tr, out) => (tr, out)

/-- Tells whether an effect is a mutating call to the destination service
(`ptSvc.Create` or `ptSvc.AddComment`). -/
def mutates : Effect → Bool
  | .createStory _ _ => true
  | .addComment _ _ _ => true
  | _ => false

/-- Tells whether a trace performs no mutating call to the destination. -/
def noMutations (tr : List Effect) : Bool := tr.all fun e => !(mutates e)

/-- Tells whether a trace contains no story creation and passes exactly
(`projId`, `stId`) to every comment-attach call. -/
def commentsOnlyFor (projId stId : Int) : List Effect → Bool
  | [] => true
  | Effect.createStory _ _ :: _ => false
  | Effect.addComment p sid _ :: tr =>
      decide (p = projId) && decide (sid = stId) && commentsOnlyFor projId stId tr
  | _ :: tr => commentsOnlyFor projId stId tr

/-- Tells whether a trace opens with the begin banner followed immediately
by the creation of exactly the story request `sr`, after which every
comment-attach call targets story `stId` and no further story is created. -/
def storyThenComments (projId : Int) (sr : StoryRequest) (stId : Int) :
    List Effect → Bool
  | Effect.print b :: Effect.createStory p req :: rest =>
      decide (b = beginBanner) && decide (p = projId) && decide (req = sr) &&
        commentsOnlyFor projId stId rest
  | _ => false

/-- Tells whether every destination write in a trace carries untruncated
converted payloads: each story creation passes exactly `sr` and each
comment-attach passes a member of `cs`. -/
def requestsExact (projId : Int) (sr : StoryRequest) (cs : List Comment) :
    List Effect → Bool
  | [] => true
  | Effect.createStory p req :: tr =>
      decide (p = projId) && decide (req = sr) && requestsExact projId sr cs tr
  | Effect.addComment p _ c :: tr =>
      decide (p = projId) && decide (c ∈ cs) && requestsExact projId sr cs tr
  | _ :: tr => requestsExact projId sr cs tr

/-- Repositories for which a trace performs an issue-listing call, in
order. -/
def issuesCallRepos : List Effect → List String
  | [] => []
  | Effect.listIssues _ r _ _ :: tr => r :: issuesCallRepos tr
  | _ :: tr => issuesCallRepos tr

/-- Repositories for which a trace performs a comment-listing call, in
order. -/
def commentsCallRepos : List Effect → List String
  | [] => []
  | Effect.listComments _ r _ _ :: tr => r :: commentsCallRepos tr
  | _ :: tr => commentsCallRepos tr

/-- Concrete sample issue (spec section 8 end-to-end scenario). -/
def is0 : Issue :=
  ⟨some 42, some "Bug: crash on load", some "steps...", some "2016-01-01",
   some "http://gh/42", ["bug"]⟩

/-- Concrete sample comment (spec section 8 end-to-end scenario). -/
def cm0 : IssueComment :=
  ⟨some "http://gh/42#c1", some "2016-01-02", some ⟨some "alice"⟩,
   some "confirmed"⟩

/-- Concrete sample issue whose `Number` pointer is nil. -/
def isNoNum : Issue :=
  ⟨none, some "t", some "b", some "2016-01-01", some "http://gh/1", []⟩

/-- Concrete environment: one issue with one comment, story id 7, all
calls succeed. -/
def env0 : Env :=
  ⟨fun _ _ _ _ => .ok [is0], fun _ _ _ _ => .ok [cm0],
   fun _ _ => .ok ⟨7⟩, fun _ _ c => .ok c⟩

/-- Concrete environment whose issue listing fails. -/
def envFail : Env :=
  ⟨fun _ _ _ _ => .error "boom", fun _ _ _ _ => .ok [],
   fun _ _ => .ok ⟨7⟩, fun _ _ c => .ok c⟩

/-- Concrete dry-run configuration. -/
def cfgD : Config := ⟨"acme", ["widgets"], 11, 1000, true⟩

/-- Concrete live-mode configuration. -/
def cfgL : Config := ⟨"acme", ["widgets"], 11, 1000, false⟩

/-- Concrete configuration with an empty repository list. -/
def cfgE : Config := ⟨"acme", [], 11, 1000, true⟩

/-- The story request `convertIssue "widgets" is0` produces. -/
def sr0 : StoryRequest :=
  ⟨"Bug: crash on load", issueProv "http://gh/42" "2016-01-01" ["bug"] ++ "steps...",
   [⟨"github-migrated"⟩, ⟨"github-repo/widgets"⟩],
   StoryTypeFeature, StoryStateUnscheduled⟩

/-- The destination comment `convertComment cm0` produces. -/
def c0 : Comment :=
  ⟨commentProv "http://gh/42#c1" "2016-01-02" "alice" ++ "confirmed"⟩

/-- Concrete 300-character string, longer than the truncation bound. -/
def longA : String := String.mk (List.replicate 300 'a')

/-- C5: `trunc` returns its argument unchanged when its length is below
255, and otherwise returns exactly the first 255 characters verbatim: the
result has length 255 and is an initial segment of the input. -/
theorem trunc_spec (s : String) :
    (s.length < 255 → trunc s = s) ∧
    (255 ≤ s.length → (trunc s).length = 255 ∧ ∃ t, s = trunc s ++ t) := by
  constructor
  · intro h
    simp [trunc, h]
  · intro h
    have hnot : ¬ s.length < 255 := by omega
    refine ⟨?_, String.mk (s.data.drop 255), ?_⟩
    · simp only [trunc, if_neg hnot]
      show (s.data.take 255).length = 255
      rw [List.length_take]
      have hd : s.data.length = s.length := rfl
      omega
    · simp only [trunc, if_neg hnot]
      show s = String.mk (s.data.take 255 ++ s.data.drop 255)
      rw [List.take_append_drop]

/-- Witness for C5 at a short and a long concrete input. -/
theorem trunc_spec_witness : trunc "ab" = "ab" ∧ (trunc longA).length = 255 :=
  ⟨(trunc_spec "ab").1 (by decide),
   ((trunc_spec longA).2 (by
      show 255 ≤ (List.replicate 300 'a').length
      rw [List.length_replicate]
      omega)).1⟩

/-- C8: with an empty configured repository list, the run fails at once
with the fatal configuration error and performs no remote call at all
(its trace is empty), whatever the other flags and the environment. -/
theorem mainRun_empty_repos (cfg : Config) (env : Env) (h : cfg.repos = []) :
    mainRun cfg env = ([], Outcome.fatal "no github repos specified") := by
  simp [mainRun, h]

/-- Witness for C8 at a concrete empty-repository configuration. -/
theorem mainRun_empty_repos_witness :
    mainRun cfgE env0 = ([], Outcome.fatal "no github repos specified") :=
  mainRun_empty_repos cfgE env0 rfl

/-- C10: `convertIssue` succeeds exactly when the issue's `HTMLURL`,
`CreatedAt`, `Body` and `Title` pointers are all present; `convertComment`
succeeds exactly when the comment's `HTMLURL`, `CreatedAt`, `User.Login`
and `Body` pointers are all present; and some run of the per-issue
migration step ends in a nil-pointer panic (here: an issue whose `Number`
is nil). -/
theorem convert_partiality_spec :
    (∀ repo is, (convertIssue repo is).isSome = true ↔
      (is.HTMLURL.isSome = true ∧ is.CreatedAt.isSome = true ∧
       is.Body.isSome = true ∧ is.Title.isSome = true)) ∧
    (∀ cm, (convertComment cm).isSome = true ↔
      (cm.HTMLURL.isSome = true ∧ cm.CreatedAt.isSome = true ∧
       (cm.User.bind User.Login).isSome = true ∧ cm.Body.isSome = true)) ∧
    (∃ cfg env repo is, (migrateIssue cfg env repo is).2 = Outcome.panics) := by
  refine ⟨?_, ?_, ⟨cfgD, env0, "widgets", isNoNum, rfl⟩⟩
  · intro repo is
    rcases h1 : is.HTMLURL with _ | url <;>
      rcases h2 : is.CreatedAt with _ | created <;>
        rcases h3 : is.Body with _ | body <;>
          rcases h4 : is.Title with _ | title <;>
            simp [convertIssue, h1, h2, h3, h4]
  · intro cm
    rcases h3 : cm.User with _ | user
    · rcases h1 : cm.HTMLURL with _ | url <;>
        rcases h2 : cm.CreatedAt with _ | created <;>
          rcases h4 : cm.Body with _ | body <;>
            simp [convertComment, h1, h2, h3, h4]
    · rcases h5 : user.Login with _ | login <;>
        rcases h1 : cm.HTMLURL with _ | url <;>
          rcases h2 : cm.CreatedAt with _ | created <;>
            rcases h4 : cm.Body with _ | body <;>
              simp [convertComment, h1, h2, h3, h4, h5]

/-- C2: whenever `convertIssue` succeeds, its description contains the
issue's origin URL, its creation timestamp and the rendered label list
verbatim, and equals the provenance block followed by the unmodified
original body. -/
theorem convertIssue_description_spec (repo url created body : String)
    (is : Issue) (sr : StoryRequest)
    (hurl : is.HTMLURL = some url) (hcr : is.CreatedAt = some created)
    (hbody : is.Body = some body)
    (hconv : convertIssue repo is = some sr) :
    url.data <:+: sr.Description.data ∧
    created.data <:+: sr.Description.data ∧
    (goQuoteList is.Labels).data <:+: sr.Description.data ∧
    sr.Description = issueProv url created is.Labels ++ body := by
  simp only [convertIssue, Option.bind_eq_bind, Option.bind_eq_some, Option.pure_def,
    Option.some.injEq] at hconv
  obtain ⟨url1, h1, created1, h2, body1, h3, title1, h4, h5⟩ := hconv
  rw [hurl, Option.some.injEq] at h1
  rw [hcr, Option.some.injEq] at h2
  rw [hbody, Option.some.injEq] at h3
  subst h1; subst h2; subst h3; subst h5
  refine ⟨?_, ?_, ?_, rfl⟩
  · exact ⟨[], (("\n```\nMigrated from Github\nCreated: " ++ created ++ "\nLabels: " ++
      goQuoteList is.Labels ++ "\n```\n\n") ++ body).data, by
      simp [issueProv, String.data_append, List.append_assoc]⟩
  · exact ⟨(url ++ "\n```\nMigrated from Github\nCreated: ").data,
      (("\nLabels: " ++ goQuoteList is.Labels ++ "\n```\n\n") ++ body).data, by
      simp [issueProv, String.data_append, List.append_assoc]⟩
  · exact ⟨(url ++ "\n```\nMigrated from Github\nCreated: " ++ created ++ "\nLabels: ").data,
      ("\n```\n\n" ++ body).data, by
      simp [issueProv, String.data_append, List.append_assoc]⟩

/-- Witness for C2 at the concrete sample issue. -/
theorem convertIssue_description_spec_witness :
    ("http://gh/42" : String).data <:+: sr0.Description.data ∧
    ("2016-01-01" : String).data <:+: sr0.Description.data ∧
    (goQuoteList is0.Labels).data <:+: sr0.Description.data ∧
    sr0.Description = issueProv "http://gh/42" "2016-01-01" is0.Labels ++ "steps..." :=
  convertIssue_description_spec "widgets" "http://gh/42" "2016-01-01" "steps..."
    is0 sr0 rfl rfl rfl rfl

/-- C6: whenever `convertComment` succeeds, its text contains the
comment's origin URL, its creation timestamp and its author login
verbatim, and equals the provenance block followed by the unmodified
original comment body. -/
theorem convertComment_text_spec (url created login body : String)
    (cm : IssueComment) (c : Comment)
    (hurl : cm.HTMLURL = some url) (hcr : cm.CreatedAt = some created)
    (hlogin : cm.User.bind User.Login = some login)
    (hbody : cm.Body = some body)
    (hconv : convertComment cm = some c) :
    url.data <:+: c.Text.data ∧
    created.data <:+: c.Text.data ∧
    login.data <:+: c.Text.data ∧
    c.Text = commentProv url created login ++ body := by
  simp only [convertComment, Option.bind_eq_bind, Option.bind_eq_some, Option.pure_def,
    Option.some.injEq] at hconv
  obtain ⟨url1, h1, created1, h2, user1, hu, login1, h3, body1, h4, h5⟩ := hconv
  rw [hurl, Option.some.injEq] at h1
  rw [hcr, Option.some.injEq] at h2
  rw [hu] at hlogin
  simp only [Option.some_bind, h3, Option.some.injEq] at hlogin
  rw [hbody, Option.some.injEq] at h4
  subst h1; subst h2; subst login1; subst h4; subst h5
  refine ⟨?_, ?_, ?_, rfl⟩
  · exact ⟨[], (("\n```\nMigrated from Github\nCreated: " ++ created ++ "\nAuthor: " ++
      login ++ "\n```\n\n") ++ body).data, by
      simp [commentProv, String.data_append, List.append_assoc]⟩
  · exact ⟨(url ++ "\n```\nMigrated from Github\nCreated: ").data,
      (("\nAuthor: " ++ login ++ "\n```\n\n") ++ body).data, by
      simp [commentProv, String.data_append, List.append_assoc]⟩
  · exact ⟨(url ++ "\n```\nMigrated from Github\nCreated: " ++ created ++ "\nAuthor: ").data,
      ("\n```\n\n" ++ body).data, by
      simp [commentProv, String.data_append, List.append_assoc]⟩

/-- Witness for C6 at the concrete sample comment. -/
theorem convertComment_text_spec_witness :
    ("http://gh/42#c1" : String).data <:+: c0.Text.data ∧
    ("2016-01-02" : String).data <:+: c0.Text.data ∧
    ("alice" : String).data <:+: c0.Text.data ∧
    c0.Text = commentProv "http://gh/42#c1" "2016-01-02" "alice" ++ "confirmed" :=
  convertComment_text_spec "http://gh/42#c1" "2016-01-02" "alice" "confirmed"
    cm0 c0 rfl rfl rfl rfl rfl

/-- C4: every story request produced by `convertIssue` carries the fixed
migrated-marker label (spelled `github-migrated` in the code) and exactly
one repository-scoped label, namely `github-repo/` followed by the
repository name. -/
theorem convertIssue_labels_spec (repo : String) (is : Issue)
    (sr : StoryRequest) (hconv : convertIssue repo is = some sr) :
    "github-migrated" ∈ sr.Labels.map Label.Name ∧
    (sr.Labels.map Label.Name).filter
      (fun s => decide (("github-repo/" : String).data <+: s.data)) =
      ["github-repo/" ++ repo] := by
  simp only [convertIssue, Option.bind_eq_bind, Option.bind_eq_some, Option.pure_def,
    Option.some.injEq] at hconv
  obtain ⟨url1, h1, created1, h2, body1, h3, title1, h4, h5⟩ := hconv
  subst h5
  have hmarker : (decide (("github-repo/" : String).data <+:
      ("github-migrated" : String).data)) = false := by decide
  have hrepo : (decide (("github-repo/" : String).data <+:
      ("github-repo/" ++ repo).data)) = true := by
    rw [decide_eq_true_eq]
    show ("github-repo/" : String).data <+: ("github-repo/" : String).data ++ repo.data
    exact List.prefix_append _ _
  refine ⟨by simp, ?_⟩
  simp [List.filter, hmarker, hrepo]

/-- Witness for C4 at the concrete sample issue. -/
theorem convertIssue_labels_spec_witness :
    "github-migrated" ∈ sr0.Labels.map Label.Name ∧
    (sr0.Labels.map Label.Name).filter
      (fun s => decide (("github-repo/" : String).data <+: s.data)) =
      ["github-repo/" ++ "widgets"] :=
  convertIssue_labels_spec "widgets" is0 sr0 rfl

@[simp] theorem noMutations_nil : noMutations [] = true := rfl

@[simp] theorem noMutations_cons (e : Effect) (tr : List Effect) :
    noMutations (e :: tr) = (!(mutates e) && noMutations tr) := by
  simp [noMutations]

@[simp] theorem noMutations_append (a b : List Effect) :
    noMutations (a ++ b) = (noMutations a && noMutations b) := by
  simp [noMutations]

theorem commentStep_dry (cfg : Config) (env : Env) (ns : Option Story)
    (cm : IssueComment) (h : cfg.dryRun = true) :
    noMutations (commentStep cfg env ns cm).1 = true := by
  rcases hc : convertComment cm with _ | cr
  · simp [commentStep, hc]
  · rcases hp : printIssueComment cm with _ | s <;>
      simp [commentStep, hc, h, hp, mutates]

theorem commentsLoop_dry (cfg : Config) (env : Env) (ns : Option Story)
    (h : cfg.dryRun = true) :
    ∀ cms, noMutations (commentsLoop cfg env ns cms).1 = true
  | [] => rfl
  | cm :: rest => by
    have hstep := commentStep_dry cfg env ns cm h
    have ih := commentsLoop_dry cfg env ns h rest
    simp only [commentsLoop]
    rcases hs : commentStep cfg env ns cm with ⟨tr, out⟩
    rw [hs] at hstep
    replace hstep : noMutations tr = true := hstep
    cases out <;> simp [hstep, ih]

theorem storyPhase_dry (cfg : Config) (env : Env) (is : Issue)
    (sr : StoryRequest) (h : cfg.dryRun = true) :
    noMutations (storyPhase cfg env is sr).1 = true := by
  rcases hp : printIssue is with _ | s <;> simp [storyPhase, h, hp, mutates]

theorem migrateIssue_dry (cfg : Config) (env : Env) (repo : String)
    (is : Issue) (h : cfg.dryRun = true) :
    noMutations (migrateIssue cfg env repo is).1 = true := by
  rcases hc : convertIssue repo is with _ | sreq
  · simp [migrateIssue, hc, mutates]
  · have hsp := storyPhase_dry cfg env is sreq h
    simp only [migrateIssue, hc]
    rcases hs : storyPhase cfg env is sreq with ⟨tr1, r⟩
    rw [hs] at hsp
    replace hsp : noMutations tr1 = true := hsp
    rcases r with out | ns
    · simp [hsp, mutates]
    · rcases hn : is.Number with _ | n
      · simp [hsp, mutates]
      · rcases hl : env.listComments cfg.owner repo n 1000 with e | cms
        · simp [hl, hsp, mutates]
        · have h4 := commentsLoop_dry cfg env ns h cms
          rcases hcl : commentsLoop cfg env ns cms with ⟨tr4, out4⟩
          rw [hcl] at h4
          replace h4 : noMutations tr4 = true := h4
          cases out4 <;> simp [hl, hcl, hsp, h4, mutates]

theorem issuesLoop_dry (cfg : Config) (env : Env) (repo : String)
    (h : cfg.dryRun = true) :
    ∀ iss, noMutations (issuesLoop cfg env repo iss).1 = true
  | [] => rfl
  | is :: rest => by
    have hstep := migrateIssue_dry cfg env repo is h
    have ih := issuesLoop_dry cfg env repo h rest
    simp only [issuesLoop]
    rcases hs : migrateIssue cfg env repo is with ⟨tr, out⟩
    rw [hs] at hstep
    replace hstep : noMutations tr = true := hstep
    cases out <;> simp [hstep, ih]

theorem repoStep_dry (cfg : Config) (env : Env) (repo : String)
    (h : cfg.dryRun = true) :
    noMutations (repoStep cfg env repo).1 = true := by
  simp only [repoStep]
  rcases hl : env.listByRepo cfg.owner repo "open" cfg.limit with e | iss
  · simp [mutates]
  · have hi := issuesLoop_dry cfg env repo h iss
    rcases hil : issuesLoop cfg env repo iss with ⟨tr, out⟩
    rw [hil] at hi
    replace hi : noMutations tr = true := hi
    simp [hil, hi, mutates]

theorem reposLoop_dry (cfg : Config) (env : Env) (h : cfg.dryRun = true) :
    ∀ repos, noMutations (reposLoop cfg env repos).1 = true
  | [] => rfl
  | repo :: rest => by
    have hstep := repoStep_dry cfg env repo h
    have ih := reposLoop_dry cfg env h rest
    simp only [reposLoop]
    rcases hs : repoStep cfg env repo with ⟨tr, out⟩
    rw [hs] at hstep
    replace hstep : noMutations tr = true := hstep
    cases out <;> simp [hstep, ih]

/-- C1: with the dry-run flag set (its default), a full run performs no
mutating call to the destination service: its whole trace is free of
`createStory` and `addComment` effects, for every configuration and every
environment (so for every set of fetched issues and comments). -/
theorem mainRun_dry_noMutations (cfg : Config) (env : Env)
    (h : cfg.dryRun = true) :
    noMutations (mainRun cfg env).1 = true := by
  simp only [mainRun]
  by_cases hr : cfg.repos.length < 1
  · simp [hr]
  · rw [if_neg hr]
    have hrl := reposLoop_dry cfg env h cfg.repos
    rcases hl : reposLoop cfg env cfg.repos with ⟨tr, out⟩
    rw [hl] at hrl
    replace hrl : noMutations tr = true := hrl
    cases out <;> simp [hrl, mutates]

/-- Witness for C1 at the concrete dry-run configuration and sample
environment. -/
theorem mainRun_dry_noMutations_witness :
    cfgD.dryRun = true ∧ noMutations (mainRun cfgD env0).1 = true :=
  ⟨rfl, mainRun_dry_noMutations cfgD env0 rfl⟩

theorem commentsOnlyFor_append (p i : Int) (a b : List Effect) :
    commentsOnlyFor p i (a ++ b) = (commentsOnlyFor p i a && commentsOnlyFor p i b) := by
  induction a with
  | nil => simp [commentsOnlyFor]
  | cons e tr ih => cases e <;> simp [commentsOnlyFor, ih, Bool.and_assoc]

theorem commentStep_live_onlyFor (cfg : Config) (env : Env) (st : Story)
    (cm : IssueComment) (h : cfg.dryRun = false) :
    commentsOnlyFor cfg.ptProjId st.Id (commentStep cfg env (some st) cm).1 = true := by
  rcases hc : convertComment cm with _ | cr
  · simp [commentStep, hc, commentsOnlyFor]
  · rcases ha : env.addComment cfg.ptProjId st.Id cr with e | c <;>
      simp [commentStep, hc, h, ha, commentsOnlyFor]

theorem commentsLoop_live_onlyFor (cfg : Config) (env : Env) (st : Story)
    (h : cfg.dryRun = false) :
    ∀ cms, commentsOnlyFor cfg.ptProjId st.Id
      (commentsLoop cfg env (some st) cms).1 = true
  | [] => rfl
  | cm :: rest => by
    have hstep := commentStep_live_onlyFor cfg env st cm h
    have ih := commentsLoop_live_onlyFor cfg env st h rest
    simp only [commentsLoop]
    rcases hs : commentStep cfg env (some st) cm with ⟨tr, out⟩
    rw [hs] at hstep
    replace hstep : commentsOnlyFor cfg.ptProjId st.Id tr = true := hstep
    cases out <;> simp [commentsOnlyFor_append, hstep, ih]

/-- C3: in live mode, whenever the per-issue migration step converts an
issue and the creation call answers with story `st`, the trace opens with
the creation of exactly that converted request, no further story is
created, and every comment-attach call of the step passes exactly the
returned story identifier `st.Id` (so the story exists strictly before
any of its comments is attached). -/
theorem migrateIssue_live_story_first (cfg : Config) (env : Env)
    (repo : String) (is : Issue) (sr : StoryRequest) (st : Story)
    (hdry : cfg.dryRun = false)
    (hconv : convertIssue repo is = some sr)
    (hcr : env.create cfg.ptProjId sr = Except.ok st) :
    storyThenComments cfg.ptProjId sr st.Id (migrateIssue cfg env repo is).1 = true := by
  simp only [migrateIssue, hconv, storyPhase, hdry, Bool.false_eq_true, if_false, hcr]
  rcases hn : is.Number with _ | n
  · simp [storyThenComments, commentsOnlyFor]
  · rcases hl : env.listComments cfg.owner repo n 1000 with e | cms
    · simp [hl, storyThenComments, commentsOnlyFor]
    · have hloop := commentsLoop_live_onlyFor cfg env st hdry cms
      rcases hcl : commentsLoop cfg env (some st) cms with ⟨tr4, out4⟩
      rw [hcl] at hloop
      replace hloop : commentsOnlyFor cfg.ptProjId st.Id tr4 = true := hloop
      cases out4 <;>
        simp [hl, hcl, storyThenComments, commentsOnlyFor, commentsOnlyFor_append, hloop]

/-- Witness for C3 at the concrete live configuration and sample
environment (story id 7). -/
theorem migrateIssue_live_story_first_witness :
    storyThenComments cfgL.ptProjId sr0 (Story.mk 7).Id
      (migrateIssue cfgL env0 "widgets" is0).1 = true :=
  migrateIssue_live_story_first cfgL env0 "widgets" is0 sr0 ⟨7⟩ rfl rfl rfl

theorem requestsExact_append (p : Int) (sr : StoryRequest) (cs : List Comment)
    (a b : List Effect) :
    requestsExact p sr cs (a ++ b) =
      (requestsExact p sr cs a && requestsExact p sr cs b) := by
  induction a with
  | nil => simp [requestsExact]
  | cons e tr ih => cases e <;> simp [requestsExact, ih, Bool.and_assoc]

theorem commentStep_live_exact (cfg : Config) (env : Env) (st : Story)
    (sr : StoryRequest) (cs : List Comment) (cm : IssueComment)
    (h : cfg.dryRun = false)
    (hcm : ∀ c, convertComment cm = some c → c ∈ cs) :
    requestsExact cfg.ptProjId sr cs (commentStep cfg env (some st) cm).1 = true := by
  rcases hc : convertComment cm with _ | cr
  · simp [commentStep, hc, requestsExact]
  · have hmem : cr ∈ cs := hcm cr hc
    rcases ha : env.addComment cfg.ptProjId st.Id cr with e | c <;>
      simp [commentStep, hc, h, ha, requestsExact, hmem]

theorem commentsLoop_live_exact (cfg : Config) (env : Env) (st : Story)
    (sr : StoryRequest) (cs : List Comment) (h : cfg.dryRun = false) :
    ∀ cms, (∀ cm ∈ cms, ∀ c, convertComment cm = some c → c ∈ cs) →
      requestsExact cfg.ptProjId sr cs (commentsLoop cfg env (some st) cms).1 = true
  | [], _ => rfl
  | cm :: rest, hsub => by
    have hstep := commentStep_live_exact cfg env st sr cs cm h
      (hsub cm (List.mem_cons_self cm rest))
    have ih := commentsLoop_live_exact cfg env st sr cs h rest
      (fun cm2 hm => hsub cm2 (List.mem_cons_of_mem cm hm))
    simp only [commentsLoop]
    rcases hs : commentStep cfg env (some st) cm with ⟨tr, out⟩
    rw [hs] at hstep
    replace hstep : requestsExact cfg.ptProjId sr cs tr = true := hstep
    cases out <;> simp [requestsExact_append, hstep, ih]

/-- C7: in live mode the payloads sent to the destination are the raw
conversion outputs, with no truncation applied: every story-creation
effect of the per-issue step carries exactly the converted request `sr`,
and every comment-attach effect carries exactly the conversion of one of
the fetched comments (`trunc` is applied only inside the print
functions, which build display strings). -/
theorem migrateIssue_live_untruncated (cfg : Config) (env : Env)
    (repo : String) (is : Issue) (sr : StoryRequest) (n : Int)
    (cms : List IssueComment)
    (hdry : cfg.dryRun = false)
    (hconv : convertIssue repo is = some sr)
    (hn : is.Number = some n)
    (hl : env.listComments cfg.owner repo n 1000 = Except.ok cms) :
    requestsExact cfg.ptProjId sr (cms.filterMap convertComment)
      (migrateIssue cfg env repo is).1 = true := by
  simp only [migrateIssue, hconv, storyPhase, hdry, Bool.false_eq_true, if_false]
  rcases hcr : env.create cfg.ptProjId sr with e | st
  · simp [requestsExact]
  · have hloop := commentsLoop_live_exact cfg env st sr (cms.filterMap convertComment)
      hdry cms (fun cm hm c hc => List.mem_filterMap.mpr ⟨cm, hm, hc⟩)
    rcases hcl : commentsLoop cfg env (some st) cms with ⟨tr4, out4⟩
    rw [hcl] at hloop
    replace hloop : requestsExact cfg.ptProjId sr (cms.filterMap convertComment) tr4 = true :=
      hloop
    rw [hn]
    cases out4 <;>
      simp [hl, hcl, requestsExact, requestsExact_append, hloop]

/-- Witness for C7 at the concrete live configuration and sample
environment. -/
theorem migrateIssue_live_untruncated_witness :
    requestsExact cfgL.ptProjId sr0 ([cm0].filterMap convertComment)
      (migrateIssue cfgL env0 "widgets" is0).1 = true :=
  migrateIssue_live_untruncated cfgL env0 "widgets" is0 sr0 42 [cm0] rfl rfl rfl rfl

@[simp] theorem issuesCallRepos_append (a b : List Effect) :
    issuesCallRepos (a ++ b) = issuesCallRepos a ++ issuesCallRepos b := by
  induction a with
  | nil => simp [issuesCallRepos]
  | cons e tr ih => cases e <;> simp [issuesCallRepos, ih]

@[simp] theorem commentsCallRepos_append (a b : List Effect) :
    commentsCallRepos (a ++ b) = commentsCallRepos a ++ commentsCallRepos b := by
  induction a with
  | nil => simp [commentsCallRepos]
  | cons e tr ih => cases e <;> simp [commentsCallRepos, ih]

theorem storyPhase_calls (cfg : Config) (env : Env) (is : Issue)
    (sr : StoryRequest) :
    issuesCallRepos (storyPhase cfg env is sr).1 = [] ∧
    commentsCallRepos (storyPhase cfg env is sr).1 = [] := by
  rcases hd : cfg.dryRun
  · rcases hc : env.create cfg.ptProjId sr with e | st <;>
      simp [storyPhase, hd, hc, issuesCallRepos, commentsCallRepos]
  · rcases hp : printIssue is with _ | s <;>
      simp [storyPhase, hd, hp, issuesCallRepos, commentsCallRepos]

theorem commentStep_calls (cfg : Config) (env : Env) (ns : Option Story)
    (cm : IssueComment) :
    issuesCallRepos (commentStep cfg env ns cm).1 = [] ∧
    commentsCallRepos (commentStep cfg env ns cm).1 = [] := by
  rcases hc : convertComment cm with _ | cr
  · simp [commentStep, hc, issuesCallRepos, commentsCallRepos]
  · rcases hd : cfg.dryRun
    · rcases ns with _ | st
      · simp [commentStep, hc, hd, issuesCallRepos, commentsCallRepos]
      · rcases ha : env.addComment cfg.ptProjId st.Id cr with e | c <;>
          simp [commentStep, hc, hd, ha, issuesCallRepos, commentsCallRepos]
    · rcases hp : printIssueComment cm with _ | s <;>
        simp [commentStep, hc, hd, hp, issuesCallRepos, commentsCallRepos]

theorem commentsLoop_calls (cfg : Config) (env : Env) (ns : Option Story) :
    ∀ cms, issuesCallRepos (commentsLoop cfg env ns cms).1 = [] ∧
      commentsCallRepos (commentsLoop cfg env ns cms).1 = []
  | [] => ⟨rfl, rfl⟩
  | cm :: rest => by
    have hstep := commentStep_calls cfg env ns cm
    have ih := commentsLoop_calls cfg env ns rest
    simp only [commentsLoop]
    rcases hs : commentStep cfg env ns cm with ⟨tr, out⟩
    rw [hs] at hstep
    replace hstep : issuesCallRepos tr = [] ∧ commentsCallRepos tr = [] := hstep
    cases out <;> simp [hstep.1, hstep.2, ih.1, ih.2]

theorem migrateIssue_calls (cfg : Config) (env : Env) (repo : String)
    (is : Issue) :
    issuesCallRepos (migrateIssue cfg env repo is).1 = [] ∧
    ∀ x ∈ commentsCallRepos (migrateIssue cfg env repo is).1, x = repo := by
  rcases hc : convertIssue repo is with _ | sreq
  · simp [migrateIssue, hc, issuesCallRepos, commentsCallRepos]
  · have hsp := storyPhase_calls cfg env is sreq
    simp only [migrateIssue, hc]
    rcases hs : storyPhase cfg env is sreq with ⟨tr1, r⟩
    rw [hs] at hsp
    replace hsp : issuesCallRepos tr1 = [] ∧ commentsCallRepos tr1 = [] := hsp
    rcases r with out | ns
    · simp [hsp.1, hsp.2, issuesCallRepos, commentsCallRepos]
    · rcases hn : is.Number with _ | n
      · simp [hsp.1, hsp.2, issuesCallRepos, commentsCallRepos]
      · rcases hl : env.listComments cfg.owner repo n 1000 with e | cms
        · simp [hl, hsp.1, hsp.2, issuesCallRepos, commentsCallRepos]
        · have h4 := commentsLoop_calls cfg env ns cms
          rcases hcl : commentsLoop cfg env ns cms with ⟨tr4, out4⟩
          rw [hcl] at h4
          replace h4 : issuesCallRepos tr4 = [] ∧ commentsCallRepos tr4 = [] := h4
          cases out4 <;>
            simp [hl, hcl, hsp.1, hsp.2, h4.1, h4.2, issuesCallRepos, commentsCallRepos]

theorem issuesLoop_calls (cfg : Config) (env : Env) (repo : String) :
    ∀ iss, issuesCallRepos (issuesLoop cfg env repo iss).1 = [] ∧
      ∀ x ∈ commentsCallRepos (issuesLoop cfg env repo iss).1, x = repo
  | [] => ⟨rfl, by simp [issuesLoop, commentsCallRepos]⟩
  | is :: rest => by
    have hstep := migrateIssue_calls cfg env repo is
    have ih := issuesLoop_calls cfg env repo rest
    simp only [issuesLoop]
    rcases hs : migrateIssue cfg env repo is with ⟨tr, out⟩
    rw [hs] at hstep
    replace hstep : issuesCallRepos tr = [] ∧
      ∀ x ∈ commentsCallRepos tr, x = repo := hstep
    cases out with
    | ok =>
      constructor
      · simp [hstep.1, ih.1]
      · intro x hx
        simp only [commentsCallRepos_append, List.mem_append] at hx
        rcases hx with hx | hx
        · exact hstep.2 x hx
        · exact ih.2 x hx
    | fatal msg => exact ⟨hstep.1, hstep.2⟩
    | panics => exact ⟨hstep.1, hstep.2⟩

theorem repoStep_calls (cfg : Config) (env : Env) (repo : String) :
    issuesCallRepos (repoStep cfg env repo).1 = [repo] ∧
    ∀ x ∈ commentsCallRepos (repoStep cfg env repo).1, x = repo := by
  simp only [repoStep]
  rcases hl : env.listByRepo cfg.owner repo "open" cfg.limit with e | iss
  · simp [issuesCallRepos, commentsCallRepos]
  · have hi := issuesLoop_calls cfg env repo iss
    rcases hil : issuesLoop cfg env repo iss with ⟨tr, out⟩
    rw [hil] at hi
    replace hi : issuesCallRepos tr = [] ∧
      ∀ x ∈ commentsCallRepos tr, x = repo := hi
    constructor
    · simp [hil, hi.1, issuesCallRepos, commentsCallRepos]
    · simp only [hil]
      intro x hx
      simp [issuesCallRepos, commentsCallRepos] at hx
      exact hi.2 x hx

theorem reposLoop_fetch_error (cfg : Config) (env : Env) (r e : String)
    (hfail : env.listByRepo cfg.owner r "open" cfg.limit = Except.error e) :
    ∀ l, r ∈ l →
    (reposLoop cfg env l).2 ≠ Outcome.ok ∧
    (∀ x ∈ issuesCallRepos (reposLoop cfg env l).1,
       x ∈ l.takeWhile (fun y => y != r) ++ [r]) ∧
    (∀ x ∈ commentsCallRepos (reposLoop cfg env l).1,
       x ∈ l.takeWhile (fun y => y != r)) := by
  intro l
  induction l with
  | nil => intro hmem; simp at hmem
  | cons a rest ih =>
    intro hmem
    by_cases har : a = r
    · subst har
      simp only [reposLoop, repoStep, hfail]
      refine ⟨by simp, ?_, by simp [commentsCallRepos]⟩
      intro x hx
      simp [issuesCallRepos, commentsCallRepos] at hx
      simp [hx]
    · have hr : r ∈ rest := by
        rcases List.mem_cons.mp hmem with h | h
        · exact absurd h.symm har
        · exact h
      obtain ⟨ih1, ih2, ih3⟩ := ih hr
      have hstep := repoStep_calls cfg env a
      have htw : (rest.takeWhile (fun y => y != r)).cons a =
          (a :: rest).takeWhile (fun y => y != r) := by
        rw [List.takeWhile_cons_of_pos]
        simp [bne_iff_ne]
        exact har
      simp only [reposLoop]
      rcases hs : repoStep cfg env a with ⟨tra, outa⟩
      rw [hs] at hstep
      replace hstep : issuesCallRepos tra = [a] ∧
        ∀ x ∈ commentsCallRepos tra, x = a := hstep
      have hcons : ∀ x, x = a → x ∈ (a :: rest).takeWhile (fun y => y != r) := by
        intro x hx
        rw [← htw, hx]
        simp
      cases outa with
      | ok =>
        refine ⟨ih1, ?_, ?_⟩
        · intro x hx
          simp only [issuesCallRepos_append, List.mem_append, hstep.1,
            List.mem_singleton] at hx
          rcases hx with hx | hx
          · exact List.mem_append_left _ (hcons x hx)
          · rcases List.mem_append.mp (ih2 x hx) with h2 | h2
            · refine List.mem_append_left _ ?_
              rw [← htw]
              exact List.mem_cons_of_mem a h2
            · exact List.mem_append_right _ h2
        · intro x hx
          simp only [commentsCallRepos_append, List.mem_append] at hx
          rcases hx with hx | hx
          · exact hcons x (hstep.2 x hx)
          · rw [← htw]
            exact List.mem_cons_of_mem a (ih3 x hx)
      | fatal msg =>
        refine ⟨by simp, ?_, ?_⟩
        · intro x hx
          rw [hstep.1] at hx
          exact List.mem_append_left _ (hcons x (List.mem_singleton.mp hx))
        · intro x hx
          exact hcons x (hstep.2 x hx)
      | panics =>
        refine ⟨by simp, ?_, ?_⟩
        · intro x hx
          rw [hstep.1] at hx
          exact List.mem_append_left _ (hcons x (List.mem_singleton.mp hx))
        · intro x hx
          exact hcons x (hstep.2 x hx)

/-- C9: if listing the open issues fails for a configured repository `r`,
the whole run aborts (it does not finish normally), every issue-listing
call of the trace is for a repository at or before the first occurrence
of `r` in the configured list (so no later repository is processed), and
no comment of any issue of `r` is ever fetched (so no issue of `r` is
migrated). -/
theorem mainRun_fetch_error_aborts (cfg : Config) (env : Env) (r e : String)
    (hmem : r ∈ cfg.repos)
    (hfail : env.listByRepo cfg.owner r "open" cfg.limit = Except.error e) :
    (mainRun cfg env).2 ≠ Outcome.ok ∧
    (issuesCallRepos (mainRun cfg env).1).all
      (fun x => decide (x ∈ cfg.repos.takeWhile (fun y => y != r) ++ [r])) = true ∧
    (commentsCallRepos (mainRun cfg env).1).all (fun x => x != r) = true := by
  obtain ⟨h1, h2, h3⟩ := reposLoop_fetch_error cfg env r e hfail cfg.repos hmem
  have hne : cfg.repos ≠ [] := List.ne_nil_of_mem hmem
  have hlen : ¬ cfg.repos.length < 1 := by
    have := List.length_pos.mpr hne
    omega
  simp only [mainRun, if_neg hlen]
  rcases hl : reposLoop cfg env cfg.repos with ⟨tr, out⟩
  rw [hl] at h1 h2 h3
  replace h1 : out ≠ Outcome.ok := h1
  replace h2 : ∀ x ∈ issuesCallRepos tr,
    x ∈ cfg.repos.takeWhile (fun y => y != r) ++ [r] := h2
  replace h3 : ∀ x ∈ commentsCallRepos tr,
    x ∈ cfg.repos.takeWhile (fun y => y != r) := h3
  cases out with
  | ok => exact absurd rfl h1
  | fatal msg =>
    refine ⟨by simp, ?_, ?_⟩
    · simp only [List.all_eq_true, decide_eq_true_eq]
      exact h2
    · simp only [List.all_eq_true]
      intro x hx
      have h5 := List.mem_takeWhile_imp (h3 x hx)
      exact h5
  | panics =>
    refine ⟨by simp, ?_, ?_⟩
    · simp only [List.all_eq_true, decide_eq_true_eq]
      exact h2
    · simp only [List.all_eq_true]
      intro x hx
      have h5 := List.mem_takeWhile_imp (h3 x hx)
      exact h5

/-- Witness for C9 at the concrete configuration whose only repository
fails to list. -/
theorem mainRun_fetch_error_aborts_witness :
    (mainRun cfgD envFail).2 ≠ Outcome.ok ∧
    (issuesCallRepos (mainRun cfgD envFail).1).all
      (fun x => decide (x ∈ cfgD.repos.takeWhile (fun y => y != "widgets") ++
        ["widgets"])) = true ∧
    (commentsCallRepos (mainRun cfgD envFail).1).all (fun x => x != "widgets") = true :=
  mainRun_fetch_error_aborts cfgD envFail "widgets" "boom" (by decide) rfl

end Migrator
